import Mathlib

/-!
Verification of the water-electricity-calculator repository.

The development embeds the two computational modules of the repository:

* `src/js/ocr.js` — the noisy-text field-extraction engine
  (`OCR.extractNumbers`, `OCR.extractReceiptData`), including faithful
  models of the JavaScript regular-expression scans it performs;
* the bill-splitting calculator (`Calculator.calculate`,
  `Calculator.validate`) together with the rate tables and the
  rate-fairness check it calls.

Numbers are modelled as exact rationals (`ℚ`); the JavaScript float
operations performed by the code on the inputs considered here are exact
at this granularity.  Strings are modelled as `List Char`/`String`.
Presentation-only data (Hebrew error/message strings, `toFixed`
formatting) is omitted; every numeric decision path is kept.
-/

namespace WEC

/-- JS whitespace class (the characters of the `\s` class that occur in
ASCII text): space, tab, newline, carriage return, vertical tab, form feed. -/
def jsWS (c : Char) : Bool :=
  c == ' ' || c == '\t' || c == '\n' || c == '\r' || c == '\x0b' || c == '\x0c'

/-- Truth value of "the text is empty or consists of whitespace only";
this is the condition `!text || text.trim() === ''` that both extraction
entry points test first. -/
def isBlank (cs : List Char) : Bool :=
  cs.all jsWS

/-- Bill type selector passed to `extractReceiptData` and stored in
calculator parameters: the string `'electricity'` or `'water'`. -/
inductive BillType where
  | electricity
  | water
deriving DecidableEq, Repr

/-- Math.round of JavaScript: round to the nearest integer, halves toward
positive infinity. -/
def jsRound (q : ℚ) : ℤ :=
  ⌊q + 1 / 2⌋

/-- Rate table `RATES` from the repository (rates.js): electricity price
per kWh, 0.6564 ₪. -/
def ratesElectricityPerUnit : ℚ := 6564 / 10000

/-- Rate table: electricity fairness tolerance, 20%. -/
def ratesElectricityTolerance : ℚ := 20 / 100

/-- Rate table: water low rate per cubic metre, 7.536 ₪. -/
def ratesWaterLowRate : ℚ := 7536 / 1000

/-- Rate table: water high rate per cubic metre, 14.264 ₪. -/
def ratesWaterHighRate : ℚ := 14264 / 1000

/-- Rate table: water fairness tolerance, 20%. -/
def ratesWaterTolerance : ℚ := 20 / 100

/-- Status component of the record returned by `checkRateFairness`
(the accompanying Hebrew message strings are presentational and omitted). -/
inductive RateStatus where
  | fair
  | warning
deriving DecidableEq, Repr

/-- The function `checkRateFairness(billType, actualRatePerUnit)` of
rates.js, reduced to the status it reports.  For electricity the actual
rate is compared with the official rate within a relative tolerance; above
the band it warns, below it is considered fair.  For water any rate at most
the high rate times (1 + tolerance) is fair, anything above warns. -/
def checkRateFairness (billType : BillType) (actualRatePerUnit : ℚ) : RateStatus :=
  match billType with
  | .electricity =>
      let diff := |actualRatePerUnit - ratesElectricityPerUnit| / ratesElectricityPerUnit
      if diff ≤ ratesElectricityTolerance then .fair
      else if ratesElectricityPerUnit < actualRatePerUnit then .warning
      else .fair
  | .water =>
      if actualRatePerUnit ≤ ratesWaterHighRate * (1 + ratesWaterTolerance) then .fair
      else .warning

/-- Parameter record consumed by `Calculator.calculate`.  The repository
passes the numbers as JavaScript numbers; they are modelled as exact
rationals (the non-numeric / NaN rejection branches of `validate` cannot
arise for rational inputs and are outside the model). -/
structure CalcParams where
  billType : BillType
  totalBill : ℚ
  totalConsumption : ℚ
  subMeterPrev : ℚ
  subMeterCurr : ℚ
deriving DecidableEq, Repr

/-- Per-unit share inside the result of `Calculator.calculate`:
consumption, percentage of total, and amount rounded to two decimals. -/
structure UnitShare where
  consumption : ℚ
  percent : ℚ
  amount : ℚ
deriving DecidableEq, Repr

/-- Successful-result record of `Calculator.calculate` (the `meters`,
`officialRate`, `unitLabel` fields are display data and carry no
computation; the numeric fields are kept). -/
structure CalcResult where
  totalBill : ℚ
  totalConsumption : ℚ
  unit1 : UnitShare
  unit2 : UnitShare
  actualRatePerUnit : ℚ
  rateCheck : RateStatus
deriving DecidableEq, Repr

/-- Outcome of `Calculator.calculate`: either `{success: false, error}` —
the Hebrew error string is omitted — or `{success: true, ...fields}`. -/
inductive CalcOutcome where
  | failure
  | ok (r : CalcResult)
deriving DecidableEq, Repr

/-- The `success` field of the object returned by `Calculator.calculate`. -/
def CalcOutcome.success : CalcOutcome → Bool
  | .failure => false
  | .ok _ => true

/-- Function `Calculator.validate(params)` of calculator.js, reduced to its
`valid` field.  It rejects a non-positive total bill, a non-positive total
consumption, a sub-meter consumption that is negative, or one that exceeds
the total consumption. -/
def validate (p : CalcParams) : Bool :=
  if p.totalBill ≤ 0 then false
  else if p.totalConsumption ≤ 0 then false
  else if p.subMeterCurr - p.subMeterPrev < 0 then false
  else if p.totalConsumption < p.subMeterCurr - p.subMeterPrev then false
  else true

/-- Consumption attributed to unit 2 by `Calculator.calculate`: current
sub-meter reading minus previous sub-meter reading. -/
def calcUnit2Consumption (p : CalcParams) : ℚ :=
  p.subMeterCurr - p.subMeterPrev

/-- Consumption attributed to unit 1 by `Calculator.calculate`: the bill's
total consumption minus the sub-meter consumption. -/
def calcUnit1Consumption (p : CalcParams) : ℚ :=
  p.totalConsumption - calcUnit2Consumption p

/-- Percentage of the total consumption used by unit 2. -/
def calcUnit2Percent (p : CalcParams) : ℚ :=
  calcUnit2Consumption p / p.totalConsumption * 100

/-- Percentage of the total consumption used by unit 1. -/
def calcUnit1Percent (p : CalcParams) : ℚ :=
  calcUnit1Consumption p / p.totalConsumption * 100

/-- Money owed by unit 2: the bill scaled by unit 2's percentage. -/
def calcUnit2Amount (p : CalcParams) : ℚ :=
  p.totalBill * calcUnit2Percent p / 100

/-- Money owed by unit 1: the remainder of the bill. -/
def calcUnit1Amount (p : CalcParams) : ℚ :=
  p.totalBill - calcUnit2Amount p

/-- Function `Calculator.calculate(params)` of calculator.js.  After
validation it derives unit 2's consumption from the sub-meter readings,
unit 1's consumption as the remainder of the bill's total consumption,
the two percentage shares, the two amounts (unit 2 proportionally, unit 1
as the remaining money, each rounded to agorot), the actual rate per unit
and the fairness status. -/
def calculate (p : CalcParams) : CalcOutcome :=
  if validate p then
    .ok
      { totalBill := p.totalBill
        totalConsumption := p.totalConsumption
        unit1 :=
          ⟨calcUnit1Consumption p, calcUnit1Percent p,
            (jsRound (calcUnit1Amount p * 100) : ℚ) / 100⟩
        unit2 :=
          ⟨calcUnit2Consumption p, calcUnit2Percent p,
            (jsRound (calcUnit2Amount p * 100) : ℚ) / 100⟩
        actualRatePerUnit := p.totalBill / p.totalConsumption
        rateCheck := checkRateFairness p.billType (p.totalBill / p.totalConsumption) }
  else .failure

/-- Character-confusion correction applied by `extractNumbers` before
matching (the chained `.replace` calls of ocr.js): o,O → 0; l,I,| → 1;
s,S → 5; b,B → 8; every other character is untouched. -/
def glyphFix (c : Char) : Char :=
  if c == 'o' || c == 'O' then '0'
  else if c == 'l' || c == 'I' || c == '|' then '1'
  else if c == 's' || c == 'S' then '5'
  else if c == 'b' || c == 'B' then '8'
  else c

/-- Quote normalization of `extractReceiptData` (`replace(/[׳']/g, "'")`):
the Hebrew geresh and the apostrophe both become an apostrophe. -/
def quoteFix (c : Char) : Char :=
  if c == '׳' || c == '\'' then '\''
  else c

/-- Worker for whitespace collapsing, JS `replace(/\s+/g, ' ')`: the flag
records whether the previous character was part of a whitespace run (so the
run's later characters are dropped instead of producing another space). -/
def collapseWSAux : Bool → List Char → List Char
  | _, [] => []
  | prevWS, c :: cs =>
    if jsWS c then
      (if prevWS then collapseWSAux true cs else ' ' :: collapseWSAux true cs)
    else c :: collapseWSAux false cs

/-- JS `replace(/\s+/g, ' ')`: every maximal whitespace run becomes one
space; no trimming. -/
def collapseWS (cs : List Char) : List Char :=
  collapseWSAux false cs

/-- Normalization performed by `extractNumbers` (the bare-number mode):
glyph-confusion correction followed by whitespace collapsing. -/
def cleanBare (cs : List Char) : List Char :=
  collapseWS (cs.map glyphFix)

/-- Normalization performed by `extractReceiptData` (the free mode):
whitespace collapsing, then removal of every comma, then quote
normalization — the order of the three `replace` calls in the source. -/
def cleanReceipt (cs : List Char) : List Char :=
  (((collapseWS cs).filter (fun c => c != ',')).map quoteFix)

/-- Numeric value of a string of decimal digit characters. -/
def digitsVal (ds : List Char) : ℕ :=
  ds.foldl (fun acc c => 10 * acc + (c.toNat - '0'.toNat)) 0

/-- Optional leading sign, for the `parseFloat` model. -/
def parseSign : List Char → Bool × List Char
  | '-' :: r => (true, r)
  | '+' :: r => (false, r)
  | cs => (false, cs)

/-- JS `parseFloat`: skip leading whitespace, optional sign, integer
digits, optional decimal point with fraction digits, and ignore the rest
of the string; `none` models the `NaN` outcome (no digits at all).
Exponents do not occur in the matched substrings of this program and are
not modelled. -/
def parseFloatQ (cs0 : List Char) : Option ℚ :=
  let sc := parseSign (cs0.dropWhile (fun c => jsWS c))
  let d1 := sc.2.takeWhile Char.isDigit
  let r1 := sc.2.dropWhile Char.isDigit
  let d2 :=
    match r1 with
    | '.' :: r2 => r2.takeWhile Char.isDigit
    | _ => []
  if d1.isEmpty && d2.isEmpty then none
  else
    let n : ℤ := (digitsVal d1 * 10 ^ d2.length + digitsVal d2 : ℕ)
    some (Rat.divInt (if sc.1 then -n else n) ((10 : ℤ) ^ d2.length))

/-- JS `replace(',', '.')` (no global flag): only the first comma becomes
a dot. -/
def replaceFirstComma : List Char → List Char
  | [] => []
  | c :: cs => if c == ',' then '.' :: cs else c :: replaceFirstComma cs

/-- Fueled digit count of a natural number (fuel `n` suffices for `n`). -/
def natLenAux : ℕ → ℕ → ℕ
  | 0, _ => 1
  | fuel + 1, n => if n < 10 then 1 else 1 + natLenAux fuel (n / 10)

/-- Number of digits in the decimal representation of a natural number. -/
def natLen (n : ℕ) : ℕ :=
  natLenAux n n

/-- Fueled search for the least `m ≥ m0` with `den ∣ 10 ^ m`. -/
def fracLenAux : ℕ → ℕ → ℕ → ℕ
  | 0, _, m => m
  | fuel + 1, den, m => if den ∣ 10 ^ m then m else fracLenAux fuel den (m + 1)

/-- Number of fraction digits JS prints for a value with reduced
denominator `den` (the least `m` with `den ∣ 10^m`; 0 for integers). -/
def fracLen (den : ℕ) : ℕ :=
  fracLenAux den den 0

/-- Length of `Number.prototype.toString()` for the non-negative decimal
values handled here: digits of the integer part, plus a dot and the
fraction digits when the value is not an integer (JS prints the shortest
decimal, so trailing zeros of a parsed fraction disappear). -/
def jsLenQ (q : ℚ) : ℕ :=
  if q.den = 1 then natLen q.num.natAbs
  else natLen (q.num.natAbs / q.den) + 1 + fracLen q.den

/-- Stable insertion used to model `Array.prototype.sort` with comparator
`(a, b) => b.toString().length - a.toString().length`: an element moves
before an already-placed element only when its string is strictly longer,
so equal lengths keep document order (JS sort is stable). -/
def insertByLen (x : ℚ) : List ℚ → List ℚ
  | [] => [x]
  | y :: ys => if jsLenQ y < jsLenQ x then x :: y :: ys else y :: insertByLen x ys

/-- The sorted candidate list of `extractNumbers`: decreasing
string-representation length, ties in document order. -/
def sortByLenDesc (l : List ℚ) : List ℚ :=
  l.foldl (fun acc x => insertByLen x acc) []

/-- JS `Math.max(...amounts)` over a candidate list (`none` on empty,
which the source guards against). -/
def maxQList : List ℚ → Option ℚ
  | [] => none
  | x :: xs => some (xs.foldl (fun a b => if a < b then b else a) x)

/-- Case-insensitive literal match (the `i` flag of the source regexes;
`Char.toLower` folds the ASCII letters, Hebrew has no case): consumes the
keyword characters and returns the rest of the input, or `none`. -/
def matchLit : List Char → List Char → Option (List Char)
  | [], cs => some cs
  | _ :: _, [] => none
  | k :: ks, c :: cs => if k.toLower == c.toLower then matchLit ks cs else none

/-- Keyword made of literal segments joined by `\s*` (such as
`סה"כ\s*לתשלום` or `מטר\s*מעוקב`): greedy whitespace skipping between
segments is exact because every segment starts with a non-space. -/
def matchKeySegs : List (List Char) → List Char → Option (List Char)
  | [], cs => some cs
  | seg :: rest, cs =>
    match matchLit seg cs with
    | none => none
    | some r =>
      match rest with
      | [] => some r
      | _ :: _ => matchKeySegs rest (r.dropWhile (fun c => jsWS c))

/-- First alternative of a regex alternation that succeeds (JS tries the
alternatives left to right at each position). -/
def firstSome (f : α → Option β) : List α → Option β
  | [] => none
  | a :: as =>
    match f a with
    | some b => some b
    | none => firstSome f as

/-- Matcher for `\d+[\.,]?\d*` anchored at the current position: maximal
digit run, then a greedy optional separator (taken even when no fraction
digits follow, exactly as the greedy JS regex behaves), then a maximal
fraction run.  Returns the captured characters and the rest. -/
def matchNum (cs : List Char) : Option (List Char × List Char) :=
  let d1 := cs.takeWhile Char.isDigit
  let r1 := cs.dropWhile Char.isDigit
  if d1.isEmpty then none
  else
    match r1 with
    | c :: r2 =>
      if c == '.' || c == ',' then
        some (d1 ++ c :: r2.takeWhile Char.isDigit, r2.dropWhile Char.isDigit)
      else some (d1, r1)
    | [] => some (d1, [])

/-- Matcher for `\d+[\.,]\d{2}` anchored at the current position: maximal
digit run, a mandatory separator, then exactly two digits.  A position
whose digit run is not followed by a separator fails (shortening the `\d+`
leaves a digit where the separator must be, so JS backtracking cannot
save it). -/
def matchNum2 (cs : List Char) : Option (List Char × List Char) :=
  let d1 := cs.takeWhile Char.isDigit
  if d1.isEmpty then none
  else
    match cs.dropWhile Char.isDigit with
    | c :: a :: b :: r2 =>
      if (c == '.' || c == ',') && a.isDigit && b.isDigit then
        some (d1 ++ [c, a, b], r2)
      else none
    | _ => none

/-- Matcher for the generic money pattern `(\d{2,6}[\.,]\d{2})`: like
`matchNum2` but the integer run must have between 2 and 6 digits (a longer
run leaves a digit where the separator must be, failing the position). -/
def matchNum26 (cs : List Char) : Option (List Char × List Char) :=
  let d1 := cs.takeWhile Char.isDigit
  if 2 ≤ d1.length && d1.length ≤ 6 then
    match cs.dropWhile Char.isDigit with
    | c :: a :: b :: r2 =>
      if (c == '.' || c == ',') && a.isDigit && b.isDigit then
        some (d1 ++ [c, a, b], r2)
      else none
    | _ => none
  else none

/-- Matcher for the meter-reading pattern `\d{3,8}(?:\.\d{1,3})?`: at least
3 digits; at most 8 are consumed (a longer run cannot have a fraction,
since a digit follows); the optional fraction takes a dot and one to three
digits greedily. -/
def matchMeterNum (cs : List Char) : Option (List Char × List Char) :=
  let d1 := cs.takeWhile Char.isDigit
  let r1 := cs.dropWhile Char.isDigit
  if d1.length < 3 then none
  else if 8 < d1.length then some (d1.take 8, d1.drop 8 ++ r1)
  else
    match r1 with
    | '.' :: r2 =>
      let d2 := r2.takeWhile Char.isDigit
      if d2.isEmpty then some (d1, r1)
      else some (d1 ++ '.' :: d2.take 3, d2.drop 3 ++ r2.dropWhile Char.isDigit)
    | _ => some (d1, r1)

/-- Matcher for the fallback pattern `\d{2,}`: a maximal digit run of at
least two digits. -/
def matchSimpleNum (cs : List Char) : Option (List Char × List Char) :=
  let d1 := cs.takeWhile Char.isDigit
  if d1.length < 2 then none
  else some (d1, cs.dropWhile Char.isDigit)

/-- Leftmost-match search of a non-global regex: try the matcher at each
start position in order. -/
def scanFirst (m : List Char → Option α) : List Char → Option α
  | [] => m []
  | c :: cs =>
    match m (c :: cs) with
    | some r => some r
    | none => scanFirst m cs

/-- All matches of a global regex: on success continue after the match
(`lastIndex`), on failure advance one position.  Fuel bounds the recursion;
every step consumes at least one character, so `length + 1` fuel is
enough. -/
def scanAll (m : List Char → Option (List Char × List Char)) :
    ℕ → List Char → List (List Char)
  | 0, _ => []
  | _ + 1, [] => []
  | fuel + 1, c :: cs =>
    match m (c :: cs) with
    | some (cap, rest) => cap :: scanAll m fuel rest
    | none => scanAll m fuel cs

/-- All matches of a global regex over a whole input. -/
def scanAllMatches (m : List Char → Option (List Char × List Char))
    (cs : List Char) : List (List Char) :=
  scanAll m (cs.length + 1) cs

/-- Suffix `\s*[:\-]?\s*₪?\s*(\d+[\.,]?\d*)` following a matched keyword
(the shekel part is present only in the bill patterns); returns the
captured number substring.  Greedy whitespace skipping and greedy optional
elements are exact: none of the optional characters is whitespace or a
digit, so no backtracking can change the outcome. -/
def afterKeyTail (allowShekel : Bool) (cs : List Char) : Option (List Char) :=
  let r1 := cs.dropWhile (fun c => jsWS c)
  let r2 :=
    match r1 with
    | c :: rest => if c == ':' || c == '-' then rest else r1
    | [] => r1
  let r3 := r2.dropWhile (fun c => jsWS c)
  let r4 :=
    if allowShekel then
      match r3 with
      | c :: rest => if c == '₪' then rest else r3
      | [] => r3
    else r3
  (matchNum (r4.dropWhile (fun c => jsWS c))).map Prod.fst

/-- Search for `(?:kw1|kw2|...)\s*[:\-]?\s*₪?\s*(\d+[\.,]?\d*)`: leftmost
position, alternatives in listed order, capture of group 1. -/
def keyNumSearch (alts : List (List (List Char))) (allowShekel : Bool)
    (cs : List Char) : Option (List Char) :=
  scanFirst
    (fun p =>
      firstSome (fun alt => (matchKeySegs alt p).bind (afterKeyTail allowShekel))
        alts)
    cs

/-- Search for `₪\s*(\d+[\.,]?\d*)\s*(?:kw1|kw2|...)` (bill pattern 2). -/
def shekelNumKeySearch (alts : List (List Char)) (cs : List Char) :
    Option (List Char) :=
  scanFirst
    (fun p =>
      match p with
      | '₪' :: r1 =>
        match matchNum (r1.dropWhile (fun c => jsWS c)) with
        | some (cap, r2) =>
          match firstSome (fun alt => matchLit alt (r2.dropWhile (fun c => jsWS c)))
              alts with
          | some _ => some cap
          | none => none
        | none => none
      | _ => none)
    cs

/-- Search for `(\d+[\.,]?\d*)\s*(?:kw1|kw2|...)` (the unit-suffix
consumption patterns). -/
def numKeySearch (alts : List (List (List Char))) (cs : List Char) :
    Option (List Char) :=
  scanFirst
    (fun p =>
      match matchNum p with
      | some (cap, r1) =>
        match firstSome (fun alt => matchKeySegs alt (r1.dropWhile (fun c => jsWS c)))
            alts with
        | some _ => some cap
        | none => none
      | none => none)
    cs

/-- One match of the global pattern `(\d+[\.,]\d{2})\s*₪` (bill pattern 3):
the returned capture is the FULL match including the trailing whitespace
and shekel sign, because `String.match` with the `g` flag returns whole
matches, not groups. -/
def moneyShekelMatch (cs : List Char) : Option (List Char × List Char) :=
  match matchNum2 cs with
  | some (cap, r1) =>
    match r1.dropWhile (fun c => jsWS c) with
    | '₪' :: r2 => some (cap ++ r1.takeWhile (fun c => jsWS c) ++ ['₪'], r2)
    | _ => none
  | none => none

/-- One match of the global pattern `₪\s*(\d+[\.,]\d{2})` (bill pattern 4):
the capture is again the full match, starting with the shekel sign. -/
def shekelMoneyMatch (cs : List Char) : Option (List Char × List Char) :=
  match cs with
  | '₪' :: r1 =>
    match matchNum2 (r1.dropWhile (fun c => jsWS c)) with
    | some (cap, r2) =>
      some ('₪' :: r1.takeWhile (fun c => jsWS c) ++ cap, r2)
    | none => none
  | _ => none

/-- Keyword alternation of bill pattern 1:
`סה"כ לתשלום | סהכ לתשלום | לתשלום | סה"כ חשבון | יתרה לתשלום |
סכום לתשלום | total` (inner gaps are `\s*`). -/
def billKeyAlts1 : List (List (List Char)) :=
  [["סה\"כ".data, "לתשלום".data],
   ["סהכ".data, "לתשלום".data],
   ["לתשלום".data],
   ["סה\"כ".data, "חשבון".data],
   ["יתרה".data, "לתשלום".data],
   ["סכום".data, "לתשלום".data],
   ["total".data]]

/-- Keyword alternation of bill pattern 2: `סה"כ | לתשלום | total`. -/
def billKeyAlts2 : List (List Char) :=
  ["סה\"כ".data, "לתשלום".data, "total".data]

/-- Keyword alternation of electricity consumption pattern 1. -/
def elecKeyAlts1 : List (List (List Char)) :=
  [["צריכה".data],
   ["סה\"כ".data, "צריכה".data],
   ["consumption".data],
   ["קוט\"ש".data],
   ["kwh".data],
   ["קילוואט".data]]

/-- Keyword alternation of electricity consumption pattern 2 (unit
suffix). -/
def elecKeyAlts2 : List (List (List Char)) :=
  [["קוט\"ש".data], ["kwh".data], ["קילוואט".data]]

/-- Keyword alternation of water consumption pattern 1. -/
def waterKeyAlts1 : List (List (List Char)) :=
  [["צריכה".data],
   ["סה\"כ".data, "צריכה".data],
   ["consumption".data],
   ["מ\"ק".data],
   ["מטר".data, "מעוקב".data],
   ["m³".data],
   ["m3".data]]

/-- Keyword alternation of water consumption pattern 2 (unit suffix). -/
def waterKeyAlts2 : List (List (List Char)) :=
  [["מ\"ק".data], ["מטר".data, "מעוקב".data], ["m³".data], ["m3".data]]

/-- One entry of an extraction cascade: the matcher produces the string
the source reads as `match[1]` (or `none`), and `lo`/`hi` are the open
plausibility bounds of the branch (`val > lo && val < hi`). -/
structure PatSpec where
  matcher : List Char → Option (List Char)
  lo : ℚ
  hi : ℚ

/-- Value a cascade entry yields: run the matcher, `parseFloat` the match
after `replace(',', '.')`, then keep the value only when it lies inside
the open plausibility interval — otherwise the loop falls through to the
next pattern. -/
def tryPatSpec (p : PatSpec) (cs : List Char) : Option ℚ :=
  match p.matcher cs with
  | none => none
  | some g =>
    match parseFloatQ (replaceFirstComma g) with
    | none => none
    | some v => if p.lo < v ∧ v < p.hi then some v else none

/-- The `for (const pattern of patterns) { ... break }` loop of
`extractReceiptData`: first cascade entry with an in-range value wins. -/
def runCascade (ps : List PatSpec) (cs : List Char) : Option ℚ :=
  match ps with
  | [] => none
  | p :: rest =>
    match tryPatSpec p cs with
    | some v => some v
    | none => runCascade rest cs

/-- Bill pattern 1: Hebrew/English total keywords followed by an optional
separator, optional shekel sign and a number; interval (0, 50000). -/
def billPat1 : PatSpec :=
  ⟨keyNumSearch billKeyAlts1 true, 0, 50000⟩

/-- Bill pattern 2: `₪`, a number, then a total keyword. -/
def billPat2 : PatSpec :=
  ⟨shekelNumKeySearch billKeyAlts2, 0, 50000⟩

/-- Bill pattern 3: global `(\d+[\.,]\d{2})\s*₪`; `match[1]` is the second
whole match of the array `String.match` returns for a global regex. -/
def billPat3 : PatSpec :=
  ⟨fun cs => (scanAllMatches moneyShekelMatch cs)[1]?, 0, 50000⟩

/-- Bill pattern 4: global `₪\s*(\d+[\.,]\d{2})`; `match[1]` is again the
second whole match, which starts with `₪` and therefore parses to `NaN`. -/
def billPat4 : PatSpec :=
  ⟨fun cs => (scanAllMatches shekelMoneyMatch cs)[1]?, 0, 50000⟩

/-- The `billPatterns` cascade of `extractReceiptData`, in source order. -/
def billPatterns : List PatSpec :=
  [billPat1, billPat2, billPat3, billPat4]

/-- The `consumptionPatterns` cascade: keyword-then-number and
number-then-unit, with interval (0, 100000) for electricity and
(0, 10000) for water. -/
def consumptionPatterns : BillType → List PatSpec
  | .electricity =>
    [⟨keyNumSearch elecKeyAlts1 false, 0, 100000⟩,
     ⟨numKeySearch elecKeyAlts2, 0, 100000⟩]
  | .water =>
    [⟨keyNumSearch waterKeyAlts1 false, 0, 10000⟩,
     ⟨numKeySearch waterKeyAlts2, 0, 10000⟩]

/-- Upper plausibility bound of the consumption cascade per bill type. -/
def consumptionUpperBound : BillType → ℚ
  | .electricity => 100000
  | .water => 10000

/-- The fallback money scan of `extractReceiptData`: every match of the
global `(\d{2,6}[\.,]\d{2})`, parsed, kept when inside (10, 50000). -/
def moneyAmounts (cs : List Char) : List ℚ :=
  (scanAllMatches matchNum26 cs).filterMap
    (fun g =>
      match parseFloatQ (replaceFirstComma g) with
      | some v => if (10 : ℚ) < v ∧ v < 50000 then some v else none
      | none => none)

/-- Result record of `OCR.extractReceiptData` : `{found, totalBill,
consumption, rawText}`. -/
structure ReceiptResult where
  found : Bool
  totalBill : Option ℚ
  consumption : Option ℚ
  rawText : String
deriving DecidableEq, Repr

/-- The `totalBill` value `extractReceiptData` computes on cleaned text:
the keyword cascade, with the maximum plausible generic money amount as
fallback when the whole cascade fails. -/
def receiptTotalBill (cs : List Char) : Option ℚ :=
  match runCascade billPatterns cs with
  | some v => some v
  | none => maxQList (moneyAmounts cs)

/-- Function `OCR.extractReceiptData(text, billType)` of ocr.js: on blank
input a not-found record with empty `rawText`; otherwise normalize, run
the bill cascade with the largest-plausible-money fallback, run the
consumption cascade, and report `found` when either field was set. -/
def extractReceiptData (text : String) (billType : BillType) : ReceiptResult :=
  if isBlank text.data then ⟨false, none, none, ""⟩
  else
    ⟨(receiptTotalBill (cleanReceipt text.data)).isSome ||
        (runCascade (consumptionPatterns billType) (cleanReceipt text.data)).isSome,
      receiptTotalBill (cleanReceipt text.data),
      runCascade (consumptionPatterns billType) (cleanReceipt text.data),
      text⟩

/-- Result record of `OCR.extractNumbers` : `{found, numbers, bestMatch,
rawText}` (`rawText` is absent — `none` — in the blank-input branch). -/
structure NumbersResult where
  found : Bool
  numbers : List ℚ
  bestMatch : Option ℚ
  rawText : Option String
deriving DecidableEq, Repr

/-- The candidate list of the primary meter pattern: parse every match,
keep the values passing `!isNaN(n) && n > 0`, sort by decreasing string
length (stable). -/
def meterCandidates (cs : List Char) : List ℚ :=
  sortByLenDesc
    ((scanAllMatches matchMeterNum cs).filterMap
      (fun g =>
        match parseFloatQ g with
        | some v => if 0 < v then some v else none
        | none => none))

/-- The candidate list of the `\d{2,}` fallback: parsed values in document
order, no filter, no sort (`(parseFloatQ _).getD 0` is total on these
digit-only matches; `parseFloat` never yields `NaN` on them). -/
def simpleCandidates (cs : List Char) : List ℚ :=
  (scanAllMatches matchSimpleNum cs).map (fun g => (parseFloatQ g).getD 0)

/-- Function `OCR.extractNumbers(text)` of ocr.js: on blank input a
not-found record; otherwise glyph-fix and collapse whitespace, scan for
`\d{3,8}(?:\.\d{1,3})?`; when that finds nothing fall back to `\d{2,}`
(unfiltered, unsorted); otherwise parse, keep the positive values, and
sort by decreasing string length; `bestMatch` is the first candidate. -/
def extractNumbers (text : String) : NumbersResult :=
  if isBlank text.data then ⟨false, [], none, none⟩
  else if (scanAllMatches matchMeterNum (cleanBare text.data)).isEmpty then
    if (scanAllMatches matchSimpleNum (cleanBare text.data)).isEmpty then
      ⟨false, [], none, some text⟩
    else
      ⟨true, simpleCandidates (cleanBare text.data),
        (simpleCandidates (cleanBare text.data)).head?, some text⟩
  else
    ⟨true, meterCandidates (cleanBare text.data),
      (meterCandidates (cleanBare text.data)).head?, some text⟩

end WEC

namespace WEC

/-- C10: for every parameter set accepted by `Calculator.validate`
(positive total bill, positive total consumption, sub-meter consumption
between 0 and the total consumption), `Calculator.calculate` succeeds and,
in exact arithmetic, the two units' consumptions sum to the total
consumption and the two percentage shares sum to 100. -/
theorem calculate_split_exact (p : CalcParams) (h : validate p = true) :
    (calculate p).success = true ∧
    ∃ r, calculate p = .ok r ∧
      r.unit1.consumption + r.unit2.consumption = p.totalConsumption ∧
      r.unit1.percent + r.unit2.percent = 100 := by
  have htc : ¬ p.totalConsumption ≤ 0 := by
    intro hle
    simp only [validate, hle] at h
    split_ifs at h
  have htc0 : p.totalConsumption ≠ 0 := fun h0 => htc (le_of_eq h0)
  refine ⟨?_, ?_⟩
  · rw [calculate, if_pos h]
    rfl
  · rw [calculate, if_pos h]
    refine ⟨_, rfl, ?_, ?_⟩
    · show calcUnit1Consumption p + calcUnit2Consumption p = p.totalConsumption
      simp only [calcUnit1Consumption, calcUnit2Consumption]
      ring
    · show calcUnit1Percent p + calcUnit2Percent p = 100
      simp only [calcUnit1Percent, calcUnit2Percent, calcUnit1Consumption,
        calcUnit2Consumption]
      field_simp
      ring

/-- Witness for C10 at the concrete parameters
(electricity, bill 100, consumption 50, sub-meter 10 → 30). -/
theorem calculate_split_exact_witness :
    validate ⟨.electricity, 100, 50, 10, 30⟩ = true ∧
    (calculate ⟨.electricity, 100, 50, 10, 30⟩).success = true := by
  have hv : validate ⟨.electricity, 100, 50, 10, 30⟩ = true := by
    norm_num [validate]
  exact ⟨hv, (calculate_split_exact ⟨.electricity, 100, 50, 10, 30⟩ hv).1⟩

/-- Helper: a cascade entry only yields values strictly inside its own
plausibility interval. -/
theorem tryPatSpec_bounds {p : PatSpec} {cs : List Char} {v : ℚ}
    (h : tryPatSpec p cs = some v) : p.lo < v ∧ v < p.hi := by
  unfold tryPatSpec at h
  rcases hm : p.matcher cs with _ | g
  · simp only [hm] at h
    exact Option.noConfusion h
  · simp only [hm] at h
    rcases hp : parseFloatQ (replaceFirstComma g) with _ | w
    · simp only [hp] at h
      exact Option.noConfusion h
    · simp only [hp] at h
      split_ifs at h with hb
      injection h with h
      subst h
      exact hb

/-- Helper: a value produced by a cascade comes from one of its entries. -/
theorem runCascade_exists {ps : List PatSpec} {cs : List Char} {v : ℚ}
    (h : runCascade ps cs = some v) : ∃ p ∈ ps, tryPatSpec p cs = some v := by
  induction ps with
  | nil => simp [runCascade] at h
  | cons p rest ih =>
    rcases ht : tryPatSpec p cs with _ | w <;> simp only [runCascade, ht] at h
    · rcases ih h with ⟨q, hq, hqt⟩
      exact ⟨q, List.mem_cons_of_mem _ hq, hqt⟩
    · exact ⟨p, List.mem_cons_self _ _, by rw [ht, h]⟩

/-- Helper: values surviving the generic money scan lie in (10, 50000). -/
theorem moneyAmounts_bounds {cs : List Char} {v : ℚ} (h : v ∈ moneyAmounts cs) :
    10 < v ∧ v < 50000 := by
  unfold moneyAmounts at h
  rcases List.mem_filterMap.mp h with ⟨g, _, hg⟩
  rcases hp : parseFloatQ (replaceFirstComma g) with _ | w
  · simp only [hp] at hg
    exact Option.noConfusion hg
  · simp only [hp] at hg
    split_ifs at hg with hb
    injection hg with hg
    subst hg
    exact hb

/-- Helper: the fold behind `Math.max` dominates its accumulator and all
list elements, and returns one of them. -/
theorem foldlMax_spec (xs : List ℚ) : ∀ a : ℚ,
    (xs.foldl (fun a b => if a < b then b else a) a = a ∨
      xs.foldl (fun a b => if a < b then b else a) a ∈ xs) ∧
    a ≤ xs.foldl (fun a b => if a < b then b else a) a ∧
    ∀ w ∈ xs, w ≤ xs.foldl (fun a b => if a < b then b else a) a := by
  induction xs with
  | nil => intro a; simp
  | cons x xs ih =>
    intro a
    simp only [List.foldl_cons]
    obtain ⟨hmem, hle, hall⟩ := ih (if a < x then x else a)
    refine ⟨?_, ?_, ?_⟩
    · rcases hmem with h | h
      · rw [h]
        split_ifs with hax
        · exact Or.inr (List.mem_cons_self _ _)
        · exact Or.inl rfl
      · exact Or.inr (List.mem_cons_of_mem _ h)
    · refine le_trans ?_ hle
      split_ifs with hax
      · exact le_of_lt hax
      · exact le_refl a
    · intro w hw
      rcases List.mem_cons.mp hw with rfl | hw
      · refine le_trans ?_ hle
        split_ifs with hax
        · exact le_refl w
        · exact le_of_not_lt hax
      · exact hall w hw

/-- Helper: `maxQList` returns a member that dominates every member. -/
theorem maxQList_spec {l : List ℚ} {v : ℚ} (h : maxQList l = some v) :
    v ∈ l ∧ ∀ w ∈ l, w ≤ v := by
  cases l with
  | nil => simp [maxQList] at h
  | cons x xs =>
    simp only [maxQList] at h
    injection h with h
    subst h
    obtain ⟨hmem, hle, hall⟩ := foldlMax_spec xs x
    refine ⟨?_, ?_⟩
    · rcases hmem with h | h
      · rw [h]; exact List.mem_cons_self _ _
      · exact List.mem_cons_of_mem _ h
    · intro w hw
      rcases List.mem_cons.mp hw with rfl | hw
      · exact hle
      · exact hall w hw

/-- Helper: every bill-cascade entry carries the interval (0, 50000). -/
theorem billPatterns_bounds {p : PatSpec} (h : p ∈ billPatterns) :
    p.lo = 0 ∧ p.hi = 50000 := by
  simp only [billPatterns, List.mem_cons, List.not_mem_nil, or_false] at h
  rcases h with rfl | rfl | rfl | rfl <;> exact ⟨rfl, rfl⟩

/-- Helper: every consumption-cascade entry carries the interval
`(0, consumptionUpperBound bt)`. -/
theorem consumptionPatterns_bounds {bt : BillType} {p : PatSpec}
    (h : p ∈ consumptionPatterns bt) :
    p.lo = 0 ∧ p.hi = consumptionUpperBound bt := by
  cases bt <;>
    simp only [consumptionPatterns, List.mem_cons, List.not_mem_nil, or_false] at h <;>
    rcases h with rfl | rfl <;> exact ⟨rfl, rfl⟩

/-- Helper: a non-null `totalBill` lies in (0, 50000). -/
theorem receiptTotalBill_bounds {cs : List Char} {v : ℚ}
    (h : receiptTotalBill cs = some v) : 0 < v ∧ v < 50000 := by
  unfold receiptTotalBill at h
  rcases hc : runCascade billPatterns cs with _ | w <;> rw [hc] at h
  · obtain ⟨hmem, _⟩ := maxQList_spec h
    obtain ⟨h10, h5⟩ := moneyAmounts_bounds hmem
    exact ⟨lt_trans (by norm_num) h10, h5⟩
  · injection h with h
    subst h
    obtain ⟨p, hp, hpt⟩ := runCascade_exists hc
    obtain ⟨hlo, hhi⟩ := billPatterns_bounds hp
    obtain ⟨h1, h2⟩ := tryPatSpec_bounds hpt
    rw [hlo] at h1
    rw [hhi] at h2
    exact ⟨h1, h2⟩

/-- C1: the claim fails on the code.  On input `"000"` the primary pattern
matches `000`, the parsed value 0 is discarded by the positivity filter,
and `extractNumbers` nevertheless reports `found = true` with a null
`bestMatch` — contradicting "if `found` is true, `value` is non-null and
plausible". -/
theorem found_true_null_value_counterexample :
    (extractNumbers "000").found = true ∧ (extractNumbers "000").bestMatch = none := by
  constructor <;> decide

/-- C1 (amended): if `found` is false the value is null and the candidate
list is empty; if `found` is true the value equals the head of the
candidate list and is therefore null exactly when every match was filtered
out; for receipt extraction, `found` is the disjunction of the two field
presences and each non-null field value lies strictly inside its
plausibility interval ((0, 50000) for the bill, (0, upper bound) for the
consumption). -/
theorem extraction_result_invariants (s : String) (bt : BillType) :
    ((extractNumbers s).found = false →
      (extractNumbers s).bestMatch = none ∧ (extractNumbers s).numbers = []) ∧
    ((extractNumbers s).found = true →
      (extractNumbers s).bestMatch = (extractNumbers s).numbers.head?) ∧
    ((extractReceiptData s bt).found =
      ((extractReceiptData s bt).totalBill.isSome ||
        (extractReceiptData s bt).consumption.isSome)) ∧
    (∀ v, (extractReceiptData s bt).totalBill = some v → 0 < v ∧ v < 50000) ∧
    (∀ v, (extractReceiptData s bt).consumption = some v →
      0 < v ∧ v < consumptionUpperBound bt) := by
  refine ⟨?_, ?_, ?_, ?_, ?_⟩
  · intro hf
    unfold extractNumbers at *
    split_ifs at * <;> simp_all
  · intro hf
    unfold extractNumbers at *
    split_ifs at * <;> simp_all
  · unfold extractReceiptData
    split_ifs <;> rfl
  · intro v hv
    unfold extractReceiptData at hv
    split_ifs at hv
    exact receiptTotalBill_bounds hv
  · intro v hv
    unfold extractReceiptData at hv
    split_ifs at hv
    obtain ⟨p, hp, hpt⟩ := runCascade_exists hv
    obtain ⟨hlo, hhi⟩ := consumptionPatterns_bounds hp
    obtain ⟨h1, h2⟩ := tryPatSpec_bounds hpt
    rw [hlo] at h1
    rw [hhi] at h2
    exact ⟨h1, h2⟩

/-- Witness for C1 (amended) at `"no digits"` (the `found = false` part)
and `"77"` (the `found = true` part). -/
theorem extraction_result_invariants_witness :
    (extractNumbers "no digits").found = false ∧
    (extractNumbers "no digits").bestMatch = none ∧
    (extractNumbers "77").found = true ∧
    (extractNumbers "77").bestMatch = (extractNumbers "77").numbers.head? :=
  ⟨by decide, ((extraction_result_invariants "no digits" .electricity).1 (by decide)).1,
    by decide, (extraction_result_invariants "77" .water).2.1 (by decide)⟩

/-- C2: the claim fails on the code.  On `"consumption 000 units"` the
bare extractor reports `found = true` with an empty candidate list (not
`found = false` with candidates `[0]`), and the receipt extractor reports
`found = false` with null fields and no candidate list at all — the
out-of-range value 0 is surfaced nowhere. -/
theorem out_of_range_candidates_counterexample :
    (extractNumbers "consumption 000 units").found = true ∧
    (extractNumbers "consumption 000 units").numbers = [] := by
  constructor <;> decide

/-- C2 (amended): when every matched value is rejected by the plausibility
filter, the receipt extraction of `"consumption 000 units"` yields
`found = false` with both fields null and surfaces no candidate values,
while the bare extractor on the same text yields `found = true` with an
empty candidate list. -/
theorem out_of_range_candidates_dropped :
    extractReceiptData "consumption 000 units" .electricity =
      ⟨false, none, none, "consumption 000 units"⟩ ∧
    extractNumbers "consumption 000 units" =
      ⟨true, [], none, some "consumption 000 units"⟩ := by
  constructor <;> decide

/-- C3: the claim fails on the code.  On
`"Total Due: 123.45 and subtotal 45.00"` the keyword pattern matches the
substring `total` inside `subtotal` (adjacent to `45.00`), so the cascade
yields 45.00 and the maximum-of-generic-matches fallback is never reached;
the result is 45, not 123.45. -/
theorem total_due_scenario_counterexample :
    (extractReceiptData "Total Due: 123.45 and subtotal 45.00" .electricity).totalBill
        = some 45 ∧
    (extractReceiptData "Total Due: 123.45 and subtotal 45.00" .electricity).totalBill
        ≠ some (Rat.divInt 2469 20) := by
  constructor <;> decide

/-- C3 (amended): whenever the whole keyword cascade yields no in-range
value on non-blank input, the selected total is the maximum among the
generic money-pattern matches inside (10, 50000); on the scenario input a
keyword pattern does yield a value (`total` matches inside `subtotal`), so
the result is `found = true` with value 45.00. -/
theorem money_fallback_maximum :
    (∀ (s : String) (bt : BillType), isBlank s.data = false →
      runCascade billPatterns (cleanReceipt s.data) = none →
      (extractReceiptData s bt).totalBill =
        maxQList (moneyAmounts (cleanReceipt s.data))) ∧
    (∀ (l : List ℚ) (v : ℚ), maxQList l = some v → v ∈ l ∧ ∀ w ∈ l, w ≤ v) ∧
    (∀ (cs : List Char) (v : ℚ), v ∈ moneyAmounts cs → 10 < v ∧ v < 50000) ∧
    (extractReceiptData "Total Due: 123.45 and subtotal 45.00" .electricity).totalBill
      = some 45 := by
  refine ⟨?_, ?_, ?_, by decide⟩
  · intro s bt hblank hcascade
    unfold extractReceiptData
    rw [if_neg (by simp [hblank])]
    show receiptTotalBill (cleanReceipt s.data) = _
    unfold receiptTotalBill
    rw [hcascade]
  · exact fun l v h => maxQList_spec h
  · exact fun cs v h => moneyAmounts_bounds h

/-- Witness for C3 (amended) at `"123.45 and 45.00"`, where no cascade
pattern matches and the fallback selects the maximum 123.45. -/
theorem money_fallback_maximum_witness :
    isBlank "123.45 and 45.00".data = false ∧
    runCascade billPatterns (cleanReceipt "123.45 and 45.00".data) = none ∧
    (extractReceiptData "123.45 and 45.00" .water).totalBill =
      maxQList (moneyAmounts (cleanReceipt "123.45 and 45.00".data)) :=
  ⟨by decide, by decide,
    money_fallback_maximum.1 "123.45 and 45.00" .water (by decide) (by decide)⟩

/-- C4: the cascade short-circuits — if every earlier entry fails and an
entry yields an in-range value, that value is the result of the whole
cascade regardless of the entries after it. -/
theorem cascade_short_circuits (pre post : List PatSpec) (p : PatSpec)
    (cs : List Char) (v : ℚ) (hpre : ∀ q ∈ pre, tryPatSpec q cs = none)
    (hp : tryPatSpec p cs = some v) :
    runCascade (pre ++ p :: post) cs = some v := by
  induction pre with
  | nil => simp only [List.nil_append, runCascade, hp]
  | cons q rest ih =>
    have hq : tryPatSpec q cs = none := hpre q (List.mem_cons_self _ _)
    simp only [List.cons_append, runCascade, hq]
    exact ih fun r hr => hpre r (List.mem_cons_of_mem _ hr)

/-- Witness for C4: on `"total: 55"` the first bill pattern yields 55, and
the full cascade `billPatterns = [] ++ billPat1 :: [billPat2, billPat3,
billPat4]` returns it. -/
theorem cascade_short_circuits_witness :
    tryPatSpec billPat1 "total: 55".data = some 55 ∧
    runCascade billPatterns "total: 55".data = some 55 :=
  ⟨by decide,
    cascade_short_circuits [] [billPat2, billPat3, billPat4] billPat1
      "total: 55".data 55 (by simp) (by decide)⟩

/-- C5: extraction is a total function (both entry points are plain Lean
functions of the input string, so no exception path exists in the model),
and on blank input — in particular the empty string — both return their
not-found record with an empty candidate list. -/
theorem blank_input_not_found (s : String) (bt : BillType)
    (h : isBlank s.data = true) :
    extractNumbers s = ⟨false, [], none, none⟩ ∧
    extractReceiptData s bt = ⟨false, none, none, ""⟩ := by
  constructor
  · unfold extractNumbers
    rw [if_pos h]
  · unfold extractReceiptData
    rw [if_pos h]

/-- Witness for C5 at the empty string. -/
theorem blank_input_not_found_witness :
    isBlank "".data = true ∧
    extractNumbers "" = ⟨false, [], none, none⟩ ∧
    extractReceiptData "" .water = ⟨false, none, none, ""⟩ :=
  ⟨by decide, (blank_input_not_found "" .water (by decide)).1,
    (blank_input_not_found "" .water (by decide)).2⟩

/-- C6: `"O1234"` in bare-number mode is normalized to `"01234"` by the
glyph-confusion map, the meter pattern matches it, and extraction returns
`found = true` with numeric value 1234. -/
theorem bare_number_glyph_scenario :
    cleanBare "O1234".data = "01234".data ∧
    extractNumbers "O1234" = ⟨true, [1234], some 1234, some "O1234"⟩ := by
  constructor <;> decide

/-- C7: the claim fails on the code.  Free-mode normalization removes
every comma before any pattern runs, so `"total: 123,45"` is matched as
`12345` — the comma never acts as a fractional separator and the value is
12345, not 123.45. -/
theorem comma_decimal_counterexample :
    (extractReceiptData "total: 123,45" .electricity).totalBill = some 12345 ∧
    (extractReceiptData "total: 123,45" .electricity).totalBill
      ≠ some (Rat.divInt 2469 20) := by
  constructor <;> decide

/-- Helper: `quoteFix` can only produce a comma from a comma. -/
theorem quoteFix_comma {b : Char} (h : quoteFix b = ',') : b = ',' := by
  unfold quoteFix at h
  split_ifs at h
  · exact absurd h (by decide)
  · exact h

/-- C7 (amended): free-mode normalization strips every comma, so no
cleaned text contains one and a captured substring can never hold a comma;
consequently `"total: 123,45"` parses to 12345. -/
theorem commas_stripped_before_parse :
    (∀ cs : List Char, ',' ∉ cleanReceipt cs) ∧
    (extractReceiptData "total: 123,45" .electricity).totalBill = some 12345 := by
  refine ⟨?_, by decide⟩
  intro cs hmem
  unfold cleanReceipt at hmem
  rcases List.mem_map.mp hmem with ⟨b, hb, hq⟩
  obtain rfl := quoteFix_comma hq
  obtain ⟨_, hpb⟩ := List.mem_filter.mp hb
  exact absurd hpb (by decide)

/-- Helper: an element of a stable insertion is the inserted element or a
member of the original list. -/
theorem mem_insertByLen {z x : ℚ} :
    ∀ {l : List ℚ}, z ∈ insertByLen x l → z = x ∨ z ∈ l := by
  intro l
  induction l with
  | nil =>
    intro h
    simp only [insertByLen, List.mem_singleton] at h
    exact Or.inl h
  | cons y ys ih =>
    intro h
    simp only [insertByLen] at h
    split_ifs at h
    · rcases List.mem_cons.mp h with rfl | h
      · exact Or.inl rfl
      · exact Or.inr h
    · rcases List.mem_cons.mp h with rfl | h
      · exact Or.inr (List.mem_cons_self _ _)
      · rcases ih h with h | h
        · exact Or.inl h
        · exact Or.inr (List.mem_cons_of_mem _ h)

/-- Helper: stable insertion preserves the decreasing-length ordering. -/
theorem pairwise_insertByLen {x : ℚ} :
    ∀ {l : List ℚ}, l.Pairwise (fun a b => jsLenQ b ≤ jsLenQ a) →
      (insertByLen x l).Pairwise (fun a b => jsLenQ b ≤ jsLenQ a) := by
  intro l
  induction l with
  | nil =>
    intro _
    simp [insertByLen]
  | cons y ys ih =>
    intro h
    rcases List.pairwise_cons.mp h with ⟨hy, hys⟩
    simp only [insertByLen]
    split_ifs with hlt
    · refine List.pairwise_cons.mpr ⟨?_, h⟩
      intro z hz
      rcases List.mem_cons.mp hz with rfl | hz
      · exact le_of_lt hlt
      · exact le_trans (hy z hz) (le_of_lt hlt)
    · refine List.pairwise_cons.mpr ⟨?_, ih hys⟩
      intro z hz
      rcases mem_insertByLen hz with rfl | hz
      · exact Nat.le_of_not_lt hlt
      · exact hy z hz

/-- Helper: the sorted candidate list is ordered by decreasing
string-representation length. -/
theorem sortByLenDesc_pairwise (l : List ℚ) :
    (sortByLenDesc l).Pairwise (fun a b => jsLenQ b ≤ jsLenQ a) := by
  have haux : ∀ (l acc : List ℚ),
      acc.Pairwise (fun a b => jsLenQ b ≤ jsLenQ a) →
      (l.foldl (fun acc x => insertByLen x acc) acc).Pairwise
        (fun a b => jsLenQ b ≤ jsLenQ a) := by
    intro l
    induction l with
    | nil => exact fun acc h => h
    | cons x xs ih =>
      intro acc h
      simp only [List.foldl_cons]
      exact ih _ (pairwise_insertByLen h)
  exact haux l [] List.Pairwise.nil

/-- C8: the claim fails on the code.  The sort key is the string length of
the PARSED value, not of the matched substring: on `"0999 1234"` the two
matched runs have equal length 4, yet `0999` parses to 999 (length 3) and
is sorted after 1234, which also becomes the selected value instead of the
earlier run. -/
theorem digit_length_sort_counterexample :
    (extractNumbers "0999 1234").numbers = [1234, 999] ∧
    (extractNumbers "0999 1234").bestMatch ≠ some 999 := by
  constructor <;> decide

/-- C8 (amended): whenever the primary meter pattern matched, the
candidate list is sorted by decreasing string length of the parsed values
(ties keep document order, the sort being stable); two equally long runs
without leading zeros therefore stay in document order and the earlier one
is selected, as on `"1234 5678"`. -/
theorem candidates_sorted_by_value_length :
    (∀ s : String, isBlank s.data = false →
      (scanAllMatches matchMeterNum (cleanBare s.data)).isEmpty = false →
      ((extractNumbers s).numbers).Pairwise (fun a b => jsLenQ b ≤ jsLenQ a)) ∧
    extractNumbers "1234 5678" = ⟨true, [1234, 5678], some 1234, some "1234 5678"⟩ := by
  constructor
  · intro s h1 h2
    unfold extractNumbers
    rw [if_neg (by simp [h1]), if_neg (by simp [h2])]
    exact sortByLenDesc_pairwise _
  · decide

/-- Witness for C8 (amended) at `"12345 678"`. -/
theorem candidates_sorted_by_value_length_witness :
    isBlank "12345 678".data = false ∧
    (scanAllMatches matchMeterNum (cleanBare "12345 678".data)).isEmpty = false ∧
    ((extractNumbers "12345 678").numbers).Pairwise
      (fun a b => jsLenQ b ≤ jsLenQ a) :=
  ⟨by decide, by decide,
    candidates_sorted_by_value_length.1 "12345 678" (by decide) (by decide)⟩

/-- Helper: whitespace collapsing is idempotent, for both values of the
previous-character flag simultaneously. -/
theorem collapseWSAux_idem (cs : List Char) :
    collapseWSAux true (collapseWSAux true cs) = collapseWSAux true cs ∧
    collapseWSAux false (collapseWSAux false cs) = collapseWSAux false cs := by
  have hsp : jsWS ' ' = true := by decide
  induction cs with
  | nil => exact ⟨rfl, rfl⟩
  | cons c cs ih =>
    cases hws : jsWS c
    · constructor <;> simp [collapseWSAux, hws, ih.1, ih.2]
    · constructor <;> simp [collapseWSAux, hws, hsp, ih.1, ih.2]

/-- Helper: whitespace collapsing commutes with a character map that
preserves whitespace-ness and fixes the space character. -/
theorem collapseWSAux_map {f : Char → Char} (hf : ∀ c, jsWS (f c) = jsWS c)
    (hsp : f ' ' = ' ') (b : Bool) (cs : List Char) :
    collapseWSAux b (cs.map f) = (collapseWSAux b cs).map f := by
  induction cs generalizing b with
  | nil => rfl
  | cons c cs ih =>
    cases hws : jsWS c
    · simp [collapseWSAux, hws, hf c, ih]
    · cases b <;> simp [collapseWSAux, hws, hf c, hsp, ih]

/-- Helper: a charwise-idempotent map is idempotent on lists. -/
theorem map_idem {f : Char → Char} (hff : ∀ c, f (f c) = f c) (cs : List Char) :
    (cs.map f).map f = cs.map f := by
  induction cs with
  | nil => rfl
  | cons c cs ih => simp [hff c, ih]

/-- Helper: the glyph map sends no character across the whitespace
boundary (letters become digits, everything else is fixed). -/
theorem glyphFix_ws (c : Char) : jsWS (glyphFix c) = jsWS c := by
  unfold glyphFix
  split_ifs with h1 h2 h3 h4
  · simp only [Bool.or_eq_true, beq_iff_eq] at h1
    rcases h1 with rfl | rfl <;> decide
  · simp only [Bool.or_eq_true, beq_iff_eq] at h2
    rcases h2 with (rfl | rfl) | rfl <;> decide
  · simp only [Bool.or_eq_true, beq_iff_eq] at h3
    rcases h3 with rfl | rfl <;> decide
  · simp only [Bool.or_eq_true, beq_iff_eq] at h4
    rcases h4 with rfl | rfl <;> decide
  · rfl

/-- Helper: the glyph map is idempotent on characters (its outputs are
digits, which it fixes). -/
theorem glyphFix_idem (c : Char) : glyphFix (glyphFix c) = glyphFix c := by
  have h : glyphFix c = '0' ∨ glyphFix c = '1' ∨ glyphFix c = '5' ∨
      glyphFix c = '8' ∨ glyphFix c = c := by
    unfold glyphFix
    split_ifs
    · exact Or.inl rfl
    · exact Or.inr (Or.inl rfl)
    · exact Or.inr (Or.inr (Or.inl rfl))
    · exact Or.inr (Or.inr (Or.inr (Or.inl rfl)))
    · exact Or.inr (Or.inr (Or.inr (Or.inr rfl)))
  rcases h with h | h | h | h | h <;> rw [h]
  · decide
  · decide
  · decide
  · decide
  · rw [h]

/-- Helper: quote normalization preserves whitespace-ness. -/
theorem quoteFix_ws (c : Char) : jsWS (quoteFix c) = jsWS c := by
  unfold quoteFix
  split_ifs with h
  · simp only [Bool.or_eq_true, beq_iff_eq] at h
    rcases h with rfl | rfl <;> decide
  · rfl

/-- Helper: quote normalization is idempotent on characters. -/
theorem quoteFix_idem (c : Char) : quoteFix (quoteFix c) = quoteFix c := by
  have h : quoteFix c = '\'' ∨ quoteFix c = c := by
    unfold quoteFix
    split_ifs
    · exact Or.inl rfl
    · exact Or.inr rfl
  rcases h with h | h <;> rw [h]
  · decide
  · rw [h]

/-- Helper: collapsing introduces only spaces; every other output
character comes from the input. -/
theorem mem_collapseWSAux {a : Char} :
    ∀ (b : Bool) (cs : List Char), a ∈ collapseWSAux b cs → a = ' ' ∨ a ∈ cs := by
  intro b cs
  induction cs generalizing b with
  | nil =>
    intro h
    exact absurd h (List.not_mem_nil a)
  | cons c cs ih =>
    intro h
    cases hws : jsWS c
    · simp only [collapseWSAux, hws, Bool.false_eq_true, if_false] at h
      rcases List.mem_cons.mp h with rfl | h
      · exact Or.inr (List.mem_cons_self _ _)
      · rcases ih false h with h | h
        · exact Or.inl h
        · exact Or.inr (List.mem_cons_of_mem _ h)
    · simp only [collapseWSAux, hws, if_true] at h
      cases b
      · simp only [Bool.false_eq_true, if_false] at h
        rcases List.mem_cons.mp h with rfl | h
        · exact Or.inl rfl
        · rcases ih true h with h | h
          · exact Or.inl h
          · exact Or.inr (List.mem_cons_of_mem _ h)
      · simp only [if_true] at h
        rcases ih true h with h | h
        · exact Or.inl h
        · exact Or.inr (List.mem_cons_of_mem _ h)

/-- Helper: collapsing a comma-free text yields comma-free text. -/
theorem comma_not_in_collapse {cs : List Char} (h : (',' : Char) ∉ cs) :
    (',' : Char) ∉ collapseWS cs := by
  intro hmem
  rcases mem_collapseWSAux false cs hmem with h1 | h1
  · exact absurd h1 (by decide)
  · exact h h1

/-- Helper: the comma filter is the identity on comma-free text. -/
theorem filter_comma_eq {cs : List Char} (h : (',' : Char) ∉ cs) :
    cs.filter (fun c => c != ',') = cs := by
  apply List.filter_eq_self.mpr
  intro a ha
  have hne : a ≠ ',' := fun he => h (he ▸ ha)
  simpa using hne

/-- C9: the claim fails on the code.  Free-mode normalization is NOT
idempotent: on `" , "` collapsing leaves single spaces around the comma,
removing the comma then creates a double space, and a second normalization
collapses it — `normalize(normalize(" , "))` ≠ `normalize(" , ")`. -/
theorem normalize_idempotent_counterexample :
    cleanReceipt (cleanReceipt " , ".data) ≠ cleanReceipt " , ".data := by
  decide

/-- C9 (amended): bare-number normalization is idempotent on every text;
free-mode normalization is idempotent on comma-free text (the comma
removal is the only step that can merge two whitespace runs). -/
theorem normalize_idempotent_amended :
    (∀ cs : List Char, cleanBare (cleanBare cs) = cleanBare cs) ∧
    (∀ cs : List Char, (',' : Char) ∉ cs →
      cleanReceipt (cleanReceipt cs) = cleanReceipt cs) := by
  have hgsp : glyphFix ' ' = ' ' := by decide
  have hqsp : quoteFix ' ' = ' ' := by decide
  constructor
  · intro cs
    show collapseWS ((collapseWS (cs.map glyphFix)).map glyphFix) =
      collapseWS (cs.map glyphFix)
    unfold collapseWS
    rw [← collapseWSAux_map glyphFix_ws hgsp, map_idem glyphFix_idem,
      (collapseWSAux_idem _).2]
  · intro cs h
    have h1 : (collapseWS cs).filter (fun c => c != ',') = collapseWS cs :=
      filter_comma_eq (comma_not_in_collapse h)
    have hy : cleanReceipt cs = (collapseWS cs).map quoteFix := by
      unfold cleanReceipt
      rw [h1]
    have hynoc : (',' : Char) ∉ (collapseWS cs).map quoteFix := by
      intro hmem
      rcases List.mem_map.mp hmem with ⟨b, hb, hq⟩
      obtain rfl := quoteFix_comma hq
      exact comma_not_in_collapse h hb
    rw [hy]
    have h2 : (collapseWS ((collapseWS cs).map quoteFix)).filter
        (fun c => c != ',') = collapseWS ((collapseWS cs).map quoteFix) :=
      filter_comma_eq (comma_not_in_collapse hynoc)
    show ((collapseWS ((collapseWS cs).map quoteFix)).filter
        (fun c => c != ',')).map quoteFix = (collapseWS cs).map quoteFix
    rw [h2]
    unfold collapseWS
    rw [← collapseWSAux_map quoteFix_ws hqsp, map_idem quoteFix_idem,
      collapseWSAux_map quoteFix_ws hqsp, (collapseWSAux_idem _).2]

/-- Witness for C9 (amended) at the comma-free text `"ab c"`. -/
theorem normalize_idempotent_amended_witness :
    (',' : Char) ∉ "ab c".data ∧
    cleanReceipt (cleanReceipt "ab c".data) = cleanReceipt "ab c".data :=
  ⟨by decide, normalize_idempotent_amended.2 "ab c".data (by decide)⟩

end WEC
